import Mathlib

/-!
Shallow embedding of the packngo HTTP API client core (packngo.go):
request construction (`NewRequest`), response dispatch (`Do`), error
classification (`CheckResponse`, `ErrorResponse.Error`) and rate-limit
bookkeeping (`populateRate`), together with theorems checking the
natural-language specification against that embedding.

Go machine integers are modelled as `Int` with the explicit 64-bit
clamping that `strconv.ParseInt` performs on range overflow; fallible
operations return `Option` or `Except`; the mutation of the client's
`RateLimit` field inside `Do` is modelled by returning the updated value.
-/

set_option autoImplicit false
set_option linter.dupNamespace false

namespace Packngo

/-- Library version constant from packngo.go. -/
def libraryVersion : String := "0.1.0"

/-- Default endpoint constant from packngo.go. -/
def baseURL : String := "https://api.packet.net/"

/-- Fixed user-agent string embedding the library version. -/
def userAgent : String := "packngo/" ++ libraryVersion

/-- JSON media type constant. -/
def mediaType : String := "application/json"

/-- Name of the request-limit rate header. -/
def headerRateLimit : String := "X-RateLimit-Limit"

/-- Name of the requests-remaining rate header. -/
def headerRateRemaining : String := "X-RateLimit-Remaining"

/-- Name of the reset-time rate header. -/
def headerRateReset : String := "X-RateLimit-Reset"

/-- Decimal digit-string parser: `some` of the value of a nonempty,
all-digit character list, `none` otherwise. -/
def decDigits (cs : List Char) : Option Nat :=
  if cs.isEmpty then Option.none
  else cs.foldlM (fun acc c => if c.isDigit then some (acc * 10 + (c.toNat - 48)) else Option.none) 0

/-- Syntactic part of Go decimal integer parsing: an optional sign
followed by at least one digit, yielding the mathematical value;
`none` on any other shape (this is exactly strconv's ErrSyntax case). -/
def parseSigned (s : String) : Option Int :=
  match s.data with
  | '+' :: rest => (decDigits rest).map (fun n => (n : Int))
  | '-' :: rest => (decDigits rest).map (fun n => -(n : Int))
  | l => (decDigits l).map (fun n => (n : Int))

/-- Largest value of Go's 64-bit int. -/
def maxInt64 : Int := 2 ^ 63 - 1

/-- Smallest value of Go's 64-bit int. -/
def minInt64 : Int := -(2 ^ 63)

/-- Model of `strconv.Atoi` / `strconv.ParseInt(s, 10, 64)`: returns the
parsed value and an ok flag. On a syntax error the value is 0; on range
overflow the value is clamped to the int64 bound; in both cases the flag
is false (Go returns a non-nil error there). -/
def goParseInt (s : String) : Int × Bool :=
  match parseSigned s with
  | Option.none => (0, false)
  | some v =>
    if v > maxInt64 then (maxInt64, false)
    else if v < minInt64 then (minInt64, false)
    else (v, true)

/-- Model of `http.Header.Get`: first value of the matching key, or the
empty string when the header is absent (keys are taken as already in
canonical form). -/
def headerGet (h : List (String × String)) (key : String) : String :=
  match h.find? (fun p => p.1 == key) with
  | some p => p.2
  | Option.none => ""

/-- Modelled from the spec: the `Rate` snapshot struct (declared outside
packngo.go) with a request limit, a requests-remaining count, and a reset
timestamp. `Reset : Option Int` models the `Timestamp` field: `none` is
the zero (unset) `Timestamp`, `some v` is `Timestamp{time.Unix(v, 0)}`.
The numeric fields default to Go's zero value 0. -/
structure Rate where
  RequestLimit : Int := 0
  RequestsRemaining : Int := 0
  Reset : Option Int := Option.none
  deriving Repr, DecidableEq

/-- Model of an `http.Request`: method, URL (rendered as a string),
header list, serialized body, and the Close flag. -/
structure HttpRequest where
  Method : String
  URL : String
  Header : List (String × String) := []
  Body : String := ""
  Close : Bool := false
  deriving Repr, DecidableEq

/-- Model of an `http.Response`: status code, header list, body bytes,
and the originating request. -/
structure HttpResponse where
  StatusCode : Int
  Header : List (String × String) := []
  Body : String := ""
  Request : HttpRequest
  deriving Repr, DecidableEq

/-- The packngo `Response` wrapper: the underlying http response plus an
embedded `Rate`. -/
structure Response where
  Response : HttpResponse
  Rate : Rate := {}
  deriving Repr, DecidableEq

/-- First if-block of `populateRate`: when the limit header is nonempty,
assign `RequestLimit` the value `strconv.Atoi` returns (its error is
discarded by the code). -/
def rateLimitStep (h : List (String × String)) (rate : Rate) : Rate :=
  let limit := headerGet h headerRateLimit
  if limit ≠ "" then { rate with RequestLimit := (goParseInt limit).1 } else rate

/-- Second if-block of `populateRate`: same for the remaining header. -/
def rateRemainingStep (h : List (String × String)) (rate : Rate) : Rate :=
  let remaining := headerGet h headerRateRemaining
  if remaining ≠ "" then { rate with RequestsRemaining := (goParseInt remaining).1 } else rate

/-- Third if-block of `populateRate`: when the reset header is nonempty
and parses (via `strconv.ParseInt`, error discarded) to a nonzero value,
set `Reset` to that Unix time; a parsed value of zero leaves it unset. -/
def rateResetStep (h : List (String × String)) (rate : Rate) : Rate :=
  let reset := headerGet h headerRateReset
  if reset ≠ "" then
    let v := (goParseInt reset).1
    if v ≠ 0 then { rate with Reset := some v } else rate
  else rate

/-- The `populateRate` method: parse the three rate-limit headers of the
wrapped response and populate `Response.Rate`, one if-block per header. -/
def populateRate (r : Response) : Response :=
  let h := r.Response.Header
  { r with Rate := rateResetStep h (rateRemainingStep h (rateLimitStep h r.Rate)) }

/-- The `ErrorResponse` struct: originating response plus an optional
server-supplied message (zero value: empty string). -/
structure ErrorResponse where
  Response : HttpResponse
  Message : String := ""
  deriving Repr, DecidableEq

/-- Argument to the `fmt.Sprintf` model: a string or an integer. -/
inductive FmtArg where
  | str (s : String)
  | int (i : Int)
  deriving Repr, DecidableEq

/-- Rendering of one `fmt.Sprintf` argument. -/
def FmtArg.render : FmtArg → String
  | FmtArg.str s => s
  | FmtArg.int i => toString i

/-- Model of `fmt.Sprintf` restricted to the `%v` and `%d` verbs used by
this client: each verb consumes the next argument, every other character
is copied through. -/
def gofmt : List Char → List FmtArg → String
  | '%' :: 'v' :: rest, a :: args => a.render ++ gofmt rest args
  | '%' :: 'd' :: rest, a :: args => a.render ++ gofmt rest args
  | c :: rest, args => toString c ++ gofmt rest args
  | [], _ => ""

/-- The `ErrorResponse.Error` method:
`fmt.Sprintf("%v %v: %d %v", method, url, statusCode, message)`. -/
def ErrorResponse.error (r : ErrorResponse) : String :=
  gofmt "%v %v: %d %v".data
    [FmtArg.str r.Response.Request.Method, FmtArg.str r.Response.Request.URL,
     FmtArg.int r.Response.StatusCode, FmtArg.str r.Message]

/-- Characters of a double-quoted literal up to the closing quote. -/
def takeQuoted : List Char → Option (List Char)
  | [] => Option.none
  | '"' :: _ => some []
  | c :: rest => (takeQuoted rest).map (fun l => c :: l)

/-- Scan for a `"message":"..."` member in the data. -/
def scanMessage : List Char → Option String
  | '"' :: 'm' :: 'e' :: 's' :: 's' :: 'a' :: 'g' :: 'e' :: '"' :: ':' :: '"' :: rest =>
      (takeQuoted rest).map (fun l => String.mk l)
  | _ :: rest => scanMessage rest
  | [] => Option.none

/-- Model of `json.Unmarshal(data, errorResponse)` as used by
`CheckResponse`: recover the server-supplied `message` field when the
body contains one, `none` otherwise (a failed unmarshal leaves the
struct untouched). Simplified scan; no claim constrains the recovered
message content. -/
def jsonUnmarshalMessage (data : String) : Option String :=
  scanMessage data.data

/-- The `CheckResponse` function: `none` (no error) when the status code
is within the 200 range; otherwise an `ErrorResponse` holding the
response, with the message populated from the fully read body when the
body is nonempty and carries one. -/
def CheckResponse (r : HttpResponse) : Option ErrorResponse :=
  if 200 ≤ r.StatusCode ∧ r.StatusCode ≤ 299 then Option.none
  else
    let data := r.Body
    some { Response := r
           Message := if data.length > 0 then (jsonUnmarshalMessage data).getD "" else "" }

/-- URL record modelling `net/url.URL` restricted to the components this
client uses: scheme, host, path, raw query. -/
structure URL where
  Scheme : String := ""
  Host : String := ""
  Path : String := ""
  RawQuery : String := ""
  deriving Repr, DecidableEq

/-- True when the character may appear in a URL scheme after the first. -/
def isSchemeChar (c : Char) : Bool :=
  c.isAlphanum || c == '+' || c == '-' || c == '.'

/-- Accumulate scheme characters up to a colon; `none` when no valid
scheme-colon prelude exists. -/
def schemeSplitAux : List Char → List Char → Option (String × List Char)
  | acc, ':' :: rest => if acc.isEmpty then Option.none else some (String.mk acc.reverse, rest)
  | acc, c :: rest => if isSchemeChar c then schemeSplitAux (c :: acc) rest else Option.none
  | _, [] => Option.none

/-- True when the string contains an ASCII control character, which
`net/url.Parse` rejects. -/
def hasCtl (s : String) : Bool :=
  s.data.any (fun c => c.toNat < 32 || c.toNat == 127)

/-- True for an ASCII hexadecimal digit. -/
def isHexDigitChar (c : Char) : Bool :=
  c.isDigit || ('a' ≤ c && c ≤ 'f') || ('A' ≤ c && c ≤ 'F')

/-- True when every percent sign is followed by two hex digits, as
`net/url.Parse` requires of escape sequences. -/
def validEscapes : List Char → Bool
  | '%' :: a :: b :: rest => isHexDigitChar a && isHexDigitChar b && validEscapes rest
  | '%' :: _ => false
  | _ :: rest => validEscapes rest
  | [] => true

/-- Split a character list at the first occurrence of the query
separator, returning the part before and the raw query after. -/
def splitQuery (l : List Char) : List Char × String :=
  let before := l.takeWhile (fun c => c ≠ '?')
  let rest := l.dropWhile (fun c => c ≠ '?')
  (before, String.mk rest.tail)

/-- Model of `net/url.Parse` restricted to the shapes this client
exercises: reject control characters and malformed percent escapes, then
split into scheme (when an alphabetic-led scheme-colon prelude is
present), authority host after a double slash, path, and raw query.
Userinfo, fragments and opaque URLs are outside the model. -/
def urlParse (s : String) : Option URL :=
  if hasCtl s || !(validEscapes s.data) then Option.none
  else
    let cs := s.data
    let schemeRest : String × List Char :=
      match cs with
      | c :: _ =>
        if c.isAlpha then
          match schemeSplitAux [] cs with
          | some (sch, r) => (sch, r)
          | Option.none => ("", cs)
        else ("", cs)
      | [] => ("", [])
    let scheme := schemeRest.1
    let afterScheme := schemeRest.2
    let querySplit := splitQuery afterScheme
    let beforeQuery := querySplit.1
    let rawQuery := querySplit.2
    match beforeQuery with
    | '/' :: '/' :: afterSlashes =>
      let host := afterSlashes.takeWhile (fun c => c ≠ '/')
      let path := afterSlashes.dropWhile (fun c => c ≠ '/')
      some { Scheme := scheme, Host := String.mk host, Path := String.mk path, RawQuery := rawQuery }
    | _ =>
      some { Scheme := scheme, Host := "", Path := String.mk beforeQuery, RawQuery := rawQuery }

/-- Everything of `base` up to and including its last slash; empty when
`base` has no slash. -/
def dirOf (base : String) : String :=
  String.mk (base.data.reverse.dropWhile (fun c => c ≠ '/')).reverse

/-- Process path segments against an output stack: a dot segment is
dropped, a dot-dot segment pops the last output segment, any other
segment is pushed. -/
def segsProcess : List String → List String → List String
  | stack, [] => stack
  | stack, "." :: rest => segsProcess stack rest
  | stack, ".." :: rest => segsProcess stack.dropLast rest
  | stack, s :: rest => segsProcess (stack ++ [s]) rest

/-- Split a character list into the path segments between slashes. -/
def splitSegs : List Char → List Char → List String
  | acc, [] => [String.mk acc.reverse]
  | acc, '/' :: rest => String.mk acc.reverse :: splitSegs [] rest
  | acc, c :: rest => splitSegs (c :: acc) rest

/-- Join segments back with slashes between them. -/
def joinSegs : List String → String
  | [] => ""
  | [x] => x
  | x :: rest => x ++ "/" ++ joinSegs rest

/-- Drop one leading slash. -/
def trimLeadingSlash (s : String) : String :=
  match s.data with
  | '/' :: rest => String.mk rest
  | _ => s

/-- Model of `net/url`'s `resolvePath`: merge the reference path with the
base path's directory (RFC 3986 §5.3), remove dot segments, keep a
trailing slash after a final dot segment, and root the result. -/
def resolvePath (base ref : String) : String :=
  let full :=
    if ref = "" then base
    else
      match ref.data with
      | '/' :: _ => ref
      | _ => dirOf base ++ ref
  if full = "" then ""
  else
    let elems := splitSegs [] full.data
    let stack := segsProcess [] elems
    let stack :=
      match elems.getLast? with
      | some "." => stack ++ [""]
      | some ".." => stack ++ [""]
      | _ => stack
    "/" ++ trimLeadingSlash (joinSegs stack)

/-- Model of `net/url`'s `URL.ResolveReference` (RFC 3986 §5.3) without
userinfo, fragments or opaque URLs: an absolute reference or one with an
authority stands alone (with its path cleaned); otherwise the base
supplies scheme and host, an empty reference path with no query inherits
the base query, and the paths are merged by `resolvePath`. -/
def URL.resolveReference (u ref : URL) : URL :=
  let url0 := if ref.Scheme = "" then { ref with Scheme := u.Scheme } else ref
  if ref.Scheme ≠ "" || ref.Host ≠ "" then
    { url0 with Path := resolvePath ref.Path "" }
  else
    let url1 :=
      if ref.Path = "" && ref.RawQuery = "" then { url0 with RawQuery := u.RawQuery } else url0
    { url1 with Host := u.Host, Path := resolvePath u.Path ref.Path }

/-- Model of `net/url`'s `URL.String` for the modelled components. -/
def URL.render (u : URL) : String :=
  (if u.Scheme ≠ "" then u.Scheme ++ ":" else "")
    ++ (if u.Host ≠ "" then "//" ++ u.Host else "")
    ++ u.Path
    ++ (if u.RawQuery ≠ "" then "?" ++ u.RawQuery else "")

/-- A Go `interface\x7b\x7d` body value abstracted by its JSON-encoding
behaviour: it either serializes to a given string or fails with a given
error (channels, functions and cycles are unencodable in Go). -/
inductive GoValue where
  | jsonOk (s : String)
  | jsonBad (e : String)
  deriving Repr, DecidableEq

/-- True for characters allowed in an HTTP method token (RFC 7230),
as `net/http`'s method validation checks. -/
def isTokenChar (c : Char) : Bool :=
  c.isAlphanum || c == '!' || c == '#' || c == '$' || c == '%' || c == '&'
    || c == '\'' || c == '*' || c == '+' || c == '-' || c == '.' || c == '^'
    || c == '_' || c == '`' || c == '|' || c == '~'

/-- Model of `net/http`'s `validMethod`: nonempty and all token chars. -/
def validMethod (m : String) : Bool :=
  m ≠ "" && m.data.all isTokenChar

/-- Model of `http.NewRequest`: an empty method defaults to GET, an
invalid method or an unparsable URL string is an error, otherwise a
request with no headers and the given body buffer is produced. -/
def httpNewRequest (method urlStr bodyBuf : String) : Except String HttpRequest :=
  let method := if method = "" then "GET" else method
  if !validMethod method then Except.error ("net/http: invalid method " ++ method)
  else
    match urlParse urlStr with
    | Option.none => Except.error "net/url: parse error"
    | some _ => Except.ok { Method := method, URL := urlStr, Header := [], Body := bodyBuf, Close := false }

/-- The packngo `Client`: transport function (`client`), configuration,
and the persisted rate-limit snapshot. The excluded per-resource service
objects are not modelled. The transport is a function from a request to
either a transport error or a response, modelling
`http.Client.Do`. -/
structure Client where
  client : HttpRequest → Except String HttpResponse
  BaseURL : URL
  UserAgent : String := userAgent
  ConsumerToken : String := ""
  ApiKey : String := ""
  RateLimit : Rate := {}

/-- The body-encoding block of `NewRequest`: a nil body yields the empty
buffer, otherwise `json.NewEncoder(buf).Encode(body)` either fills the
buffer (appending a newline, as `json.Encoder` does) or fails. -/
def encodeBody : Option GoValue → Except String String
  | Option.none => Except.ok ""
  | some (GoValue.jsonOk s) => Except.ok (s ++ "\n")
  | some (GoValue.jsonBad e) => Except.error e

/-- The `Client.NewRequest` method: parse the relative path (propagating
a parse failure), resolve it against the base URL, JSON-encode the body
when one is supplied (propagating an encoding failure), build the
request via `http.NewRequest` (propagating its failure), mark it for
closure, and add the five fixed headers in source order. -/
def Client.NewRequest (c : Client) (method path : String) (body : Option GoValue) : Except String HttpRequest :=
  match urlParse path with
  | Option.none => Except.error "net/url: parse error"
  | some rel =>
    let u := c.BaseURL.resolveReference rel
    match encodeBody body with
    | Except.error e => Except.error e
    | Except.ok buf =>
      match httpNewRequest method u.render buf with
      | Except.error e => Except.error e
      | Except.ok req =>
        Except.ok { req with
          Close := true
          Header := [("X-Auth-Token", c.ApiKey), ("X-Consumer-Token", c.ConsumerToken),
                     ("Content-Type", mediaType), ("Accept", mediaType),
                     ("User-Agent", userAgent)] }

/-- The polymorphic destination argument `v` of `Do`, as a tagged
variant of the capability check the code performs: `nil`, an `io.Writer`
raw sink, or a JSON-decode target.
`writer failAt`: the sink accepts the whole stream when `failAt` is
`none`, and fails after accepting `n` bytes when `failAt = some n`
(modelling a partway `io.Copy` failure).
`json decode`: the decode behaviour of `json.Decoder.Decode` into the
caller's value, giving `none` on success and `some msg` on a decode
error for a given body. -/
inductive Dest where
  | none
  | writer (failAt : Option Nat)
  | json (decode : String → Option String)

/-- How much of the response body stream a call to `Do` read:
`untouched` — never read, only closed by the deferred `Body.Close`;
`fullyRead` — read to EOF (`ioutil.ReadAll` or a completed `io.Copy`);
`readUpTo n` — an `io.Copy` that failed after `n` bytes;
`decoderRead` — a `json.Decoder` consumed an implementation-defined
amount. -/
inductive BodyUse where
  | untouched
  | fullyRead
  | readUpTo (n : Nat)
  | decoderRead
  deriving Repr, DecidableEq

/-- The transport error type: the message of the error returned by the
underlying `http.Client.Do`. -/
inductive DoError where
  | transport (msg : String)
  | api (e : ErrorResponse)
  | decode (msg : String)
  deriving Repr, DecidableEq

/-- Observable outcome of one call to `Client.Do`:
`RateLimit` — the client's persisted `RateLimit` field after the call
(Go mutates the receiver; the model returns the new value);
`resp` — the returned `*Response` wrapper (`none` models a nil pointer);
`err` — the returned error (`none` models nil);
`written` — the bytes delivered to an `io.Writer` destination, when the
raw-copy branch ran;
`jsonAttempted` — whether a JSON decode of the body was attempted;
`bodyUse` — how much of the body stream was read. -/
structure DoResult where
  RateLimit : Rate
  resp : Option Response
  err : Option DoError
  written : Option String
  jsonAttempted : Bool
  bodyUse : BodyUse

/-- The `Client.Do` method: run the transport (returning its error with
a nil wrapper on failure and leaving the client untouched); wrap the
response, populate its rate from the headers and persist that snapshot
on the client; classify the status via `CheckResponse`, returning the
wrapper together with the API error on a non-2xx status; otherwise
dispatch on the destination: nothing for nil, a raw copy whose own error
is discarded for an `io.Writer`, or a JSON decode whose failure is
returned alongside the wrapper. -/
def Client.Do (c : Client) (req : HttpRequest) (v : Dest) : DoResult :=
  match c.client req with
  | Except.error e =>
    { RateLimit := c.RateLimit, resp := Option.none, err := some (DoError.transport e),
      written := Option.none, jsonAttempted := false, bodyUse := BodyUse.untouched }
  | Except.ok resp =>
    let response := populateRate { Response := resp, Rate := {} }
    let newRate := response.Rate
    match CheckResponse resp with
    | some er =>
      { RateLimit := newRate, resp := some response, err := some (DoError.api er),
        written := Option.none, jsonAttempted := false, bodyUse := BodyUse.fullyRead }
    | Option.none =>
      match v with
      | Dest.none =>
        { RateLimit := newRate, resp := some response, err := Option.none,
          written := Option.none, jsonAttempted := false, bodyUse := BodyUse.untouched }
      | Dest.writer failAt =>
        match failAt with
        | Option.none =>
          { RateLimit := newRate, resp := some response, err := Option.none,
            written := some resp.Body, jsonAttempted := false, bodyUse := BodyUse.fullyRead }
        | some n =>
          { RateLimit := newRate, resp := some response, err := Option.none,
            written := some (resp.Body.take n), jsonAttempted := false,
            bodyUse := BodyUse.readUpTo (min n resp.Body.length) }
      | Dest.json decode =>
        match decode resp.Body with
        | Option.none =>
          { RateLimit := newRate, resp := some response, err := Option.none,
            written := Option.none, jsonAttempted := true, bodyUse := BodyUse.decoderRead }
        | some e =>
          { RateLimit := newRate, resp := some response, err := some (DoError.decode e),
            written := Option.none, jsonAttempted := true, bodyUse := BodyUse.decoderRead }

/-- True when the destination's JSON decode succeeds on the given body
(vacuously true for a nil or raw-sink destination, which never decode). -/
def destDecodeOk (v : Dest) (body : String) : Bool :=
  match v with
  | Dest.json decode => (decode body).isNone
  | _ => true

/-- Concrete request used by the concrete-input theorems below. -/
def reqPlans : HttpRequest := { Method := "GET", URL := "https://api.packet.net/plans" }

/-- The parsed library base URL. -/
def baseParsed : URL := (urlParse baseURL).getD {}

/-- Concrete rate-limit headers with a zero reset value. -/
def rateHeaders : List (String × String) :=
  [("X-RateLimit-Limit", "100"), ("X-RateLimit-Remaining", "99"), ("X-RateLimit-Reset", "0")]

/-- Concrete 200 response whose body is not valid JSON. -/
def resp200 : HttpResponse :=
  { StatusCode := 200, Header := rateHeaders, Body := "notjson", Request := reqPlans }

/-- Concrete 422 response carrying rate-limit headers. -/
def resp422 : HttpResponse :=
  { StatusCode := 422, Header := rateHeaders, Body := "", Request := reqPlans }

/-- Concrete 204 response with no rate-limit headers and a nonempty body. -/
def respBare : HttpResponse :=
  { StatusCode := 204, Header := [], Body := "abc", Request := reqPlans }

/-- A nonzero persisted rate snapshot from an earlier exchange. -/
def prevRate : Rate := { RequestLimit := 7, RequestsRemaining := 3, Reset := some 5 }

/-- Client whose transport always returns the given response. -/
def clientFor (r : HttpResponse) : Client :=
  { client := fun _ => Except.ok r, BaseURL := baseParsed, ConsumerToken := "ct",
    ApiKey := "key", RateLimit := prevRate }

/-- Client whose transport always fails at the network level. -/
def clientDown : Client :=
  { client := fun _ => Except.error "connection refused", BaseURL := baseParsed,
    ConsumerToken := "ct", ApiKey := "key", RateLimit := prevRate }

/-- A JSON destination whose decode always fails, as decoding a
non-JSON body into a Go struct does. -/
def badJson : Dest := Dest.json (fun _ => some "invalid character looking for beginning of value")

/-- Only the `RequestLimit` field is written by the first if-block, and
only when the limit header is nonempty. -/
theorem rateLimitStep_RequestLimit (h : List (String × String)) (rate : Rate) :
    (rateLimitStep h rate).RequestLimit =
      (if headerGet h headerRateLimit ≠ "" then (goParseInt (headerGet h headerRateLimit)).1
       else rate.RequestLimit) := by
  simp only [rateLimitStep]
  split <;> simp_all

/-- The first if-block leaves `RequestsRemaining` unchanged. -/
theorem rateLimitStep_RequestsRemaining (h : List (String × String)) (rate : Rate) :
    (rateLimitStep h rate).RequestsRemaining = rate.RequestsRemaining := by
  simp only [rateLimitStep]
  split <;> rfl

/-- The first if-block leaves `Reset` unchanged. -/
theorem rateLimitStep_Reset (h : List (String × String)) (rate : Rate) :
    (rateLimitStep h rate).Reset = rate.Reset := by
  simp only [rateLimitStep]
  split <;> rfl

/-- Only the `RequestsRemaining` field is written by the second
if-block, and only when the remaining header is nonempty. -/
theorem rateRemainingStep_RequestsRemaining (h : List (String × String)) (rate : Rate) :
    (rateRemainingStep h rate).RequestsRemaining =
      (if headerGet h headerRateRemaining ≠ "" then (goParseInt (headerGet h headerRateRemaining)).1
       else rate.RequestsRemaining) := by
  simp only [rateRemainingStep]
  split <;> simp_all

/-- The second if-block leaves `RequestLimit` unchanged. -/
theorem rateRemainingStep_RequestLimit (h : List (String × String)) (rate : Rate) :
    (rateRemainingStep h rate).RequestLimit = rate.RequestLimit := by
  simp only [rateRemainingStep]
  split <;> rfl

/-- The second if-block leaves `Reset` unchanged. -/
theorem rateRemainingStep_Reset (h : List (String × String)) (rate : Rate) :
    (rateRemainingStep h rate).Reset = rate.Reset := by
  simp only [rateRemainingStep]
  split <;> rfl

/-- The third if-block writes `Reset` exactly when the reset header is
nonempty and its parsed value is nonzero. -/
theorem rateResetStep_Reset (h : List (String × String)) (rate : Rate) :
    (rateResetStep h rate).Reset =
      (if headerGet h headerRateReset ≠ "" ∧ (goParseInt (headerGet h headerRateReset)).1 ≠ 0
       then some (goParseInt (headerGet h headerRateReset)).1
       else rate.Reset) := by
  simp only [rateResetStep]
  split
  · split <;> simp_all
  · simp_all

/-- The third if-block leaves `RequestLimit` unchanged. -/
theorem rateResetStep_RequestLimit (h : List (String × String)) (rate : Rate) :
    (rateResetStep h rate).RequestLimit = rate.RequestLimit := by
  simp only [rateResetStep]
  split
  · split <;> rfl
  · rfl

/-- The third if-block leaves `RequestsRemaining` unchanged. -/
theorem rateResetStep_RequestsRemaining (h : List (String × String)) (rate : Rate) :
    (rateResetStep h rate).RequestsRemaining = rate.RequestsRemaining := by
  simp only [rateResetStep]
  split
  · split <;> rfl
  · rfl

/-- A string that parses as a signed decimal integer is nonempty. -/
theorem parseSigned_ne_empty (s : String) (v : Int) (h : parseSigned s = some v) : s ≠ "" := by
  intro he
  subst he
  simp [parseSigned, decDigits] at h

/-- When the Go parse reports ok, the value is the syntactic one. -/
theorem goParseInt_ok (s : String) (v : Int) (h : goParseInt s = (v, true)) :
    parseSigned s = some v := by
  unfold goParseInt at h
  cases hp : parseSigned s with
  | none => rw [hp] at h; exact absurd h (by simp)
  | some w =>
    rw [hp] at h
    by_cases h1 : w > maxInt64
    · simp [h1] at h
    · by_cases h2 : w < minInt64
      · simp [h1, h2] at h
      · simp [h1, h2] at h
        exact congrArg some h

/-- Closed forms of the three fields of a freshly populated snapshot. -/
theorem populateRate_fields (r : HttpResponse) :
    (populateRate { Response := r, Rate := {} }).Rate.RequestLimit =
      (if headerGet r.Header headerRateLimit ≠ "" then (goParseInt (headerGet r.Header headerRateLimit)).1 else 0)
    ∧ (populateRate { Response := r, Rate := {} }).Rate.RequestsRemaining =
      (if headerGet r.Header headerRateRemaining ≠ "" then (goParseInt (headerGet r.Header headerRateRemaining)).1 else 0)
    ∧ (populateRate { Response := r, Rate := {} }).Rate.Reset =
      (if headerGet r.Header headerRateReset ≠ "" ∧ (goParseInt (headerGet r.Header headerRateReset)).1 ≠ 0
       then some (goParseInt (headerGet r.Header headerRateReset)).1 else Option.none) := by
  refine ⟨?_, ?_, ?_⟩
  · show (rateResetStep _ (rateRemainingStep _ (rateLimitStep _ _))).RequestLimit = _
    rw [rateResetStep_RequestLimit, rateRemainingStep_RequestLimit, rateLimitStep_RequestLimit]
  · show (rateResetStep _ (rateRemainingStep _ (rateLimitStep _ _))).RequestsRemaining = _
    rw [rateResetStep_RequestsRemaining, rateRemainingStep_RequestsRemaining]
    rw [rateLimitStep_RequestsRemaining]
  · show (rateResetStep _ (rateRemainingStep _ (rateLimitStep _ _))).Reset = _
    rw [rateResetStep_Reset, rateRemainingStep_Reset, rateLimitStep_Reset]

/-- The classifier accepts exactly the 200 range. -/
theorem checkResponse_none_iff (r : HttpResponse) :
    CheckResponse r = Option.none ↔ (200 ≤ r.StatusCode ∧ r.StatusCode ≤ 299) := by
  unfold CheckResponse
  split <;> simp_all

/-- A classification error embeds the classified response itself. -/
theorem checkResponse_some_response (r : HttpResponse) (er : ErrorResponse)
    (h : CheckResponse r = some er) : er.Response = r := by
  unfold CheckResponse at h
  split at h
  · exact absurd h (by simp)
  · simp only [Option.some.injEq] at h
    subst h
    rfl

/-- When the transport returns a response, `Do` returns the wrapper and
persists its snapshot, in every status and destination case. -/
theorem do_ok_parts (c : Client) (req : HttpRequest) (v : Dest) (resp : HttpResponse)
    (h : c.client req = Except.ok resp) :
    (c.Do req v).resp = some (populateRate { Response := resp, Rate := {} })
      ∧ (c.Do req v).RateLimit = (populateRate { Response := resp, Rate := {} }).Rate := by
  simp only [Client.Do, h]
  repeat' split
  all_goals exact ⟨rfl, rfl⟩

/-- Characterization of the returned error of `Do` when the transport
returned a response: nil exactly on a 2xx status whose decode (when a
JSON destination is supplied) succeeds. -/
theorem do_err_none_iff (c : Client) (req : HttpRequest) (v : Dest) (resp : HttpResponse)
    (h : c.client req = Except.ok resp) :
    ((c.Do req v).err = Option.none ↔
      (200 ≤ resp.StatusCode ∧ resp.StatusCode ≤ 299 ∧ destDecodeOk v resp.Body = true)) := by
  simp only [Client.Do, h]
  cases hcr : CheckResponse resp with
  | some er =>
    have hns : ¬(200 ≤ resp.StatusCode ∧ resp.StatusCode ≤ 299) := by
      intro hx
      rw [(checkResponse_none_iff resp).mpr hx] at hcr
      exact Option.noConfusion hcr
    constructor
    · intro hx
      exact absurd hx (by simp)
    · intro hx
      exact absurd ⟨hx.1, hx.2.1⟩ hns
  | none =>
    have h2xx := (checkResponse_none_iff resp).mp hcr
    cases v with
    | none => simp [destDecodeOk, h2xx.1, h2xx.2]
    | writer failAt => cases failAt <;> simp [destDecodeOk, h2xx.1, h2xx.2]
    | json dec =>
      cases hd : dec resp.Body with
      | none => simp [destDecodeOk, hd, h2xx.1, h2xx.2]
      | some e => simp [destDecodeOk, hd, h2xx.1, h2xx.2]

/-- C1 (amended): `CheckResponse` returns no error iff the status code
is in 200..299, and any error it returns embeds a response whose status
code equals the checked one; consequently, when the transport returned
a response, `Do` returns a nil error iff the status is 2xx and, when a
JSON destination was supplied, its decode of the body succeeds. -/
theorem checkResponse_do_spec (r : HttpResponse) :
    (CheckResponse r = Option.none ↔ (200 ≤ r.StatusCode ∧ r.StatusCode ≤ 299))
    ∧ (∀ er : ErrorResponse, CheckResponse r = some er → er.Response.StatusCode = r.StatusCode)
    ∧ (∀ (c : Client) (req : HttpRequest) (v : Dest), c.client req = Except.ok r →
        ((c.Do req v).err = Option.none ↔
          (200 ≤ r.StatusCode ∧ r.StatusCode ≤ 299 ∧ destDecodeOk v r.Body = true))) := by
  refine ⟨checkResponse_none_iff r, ?_, ?_⟩
  · intro er h
    rw [checkResponse_some_response r er h]
  · intro c req v h
    exact do_err_none_iff c req v r h

/-- C1 counterexample: a 200 response whose body fails JSON decoding
into the supplied destination makes `Do` return a non-nil error, so
`Do` does not return a nil error for every 2xx response. -/
theorem do_2xx_decode_error_cex :
    (200 ≤ resp200.StatusCode ∧ resp200.StatusCode ≤ 299)
    ∧ ((clientFor resp200).Do reqPlans badJson).err ≠ Option.none := by
  exact ⟨by decide, by decide⟩

/-- C1 witness: a concrete 200 exchange with no destination yields a
nil error. -/
theorem checkResponse_do_spec_witness :
    ((clientFor resp200).Do reqPlans Dest.none).err = Option.none := by
  exact ((checkResponse_do_spec resp200).2.2 (clientFor resp200) reqPlans Dest.none rfl).mpr
    (by decide)

/-- C2: a freshly populated snapshot carries the parsed values of the
three rate headers when they parse as integers; a reset value of
exactly zero leaves `Reset` unset; an absent header leaves its field at
the zero default; a non-numeric header value likewise leaves the field
at its default, and `populateRate` has no error channel to surface it. -/
theorem populateRate_spec (r : HttpResponse) :
    (∀ v : Int, goParseInt (headerGet r.Header headerRateLimit) = (v, true) →
        (populateRate { Response := r, Rate := {} }).Rate.RequestLimit = v)
    ∧ (∀ v : Int, goParseInt (headerGet r.Header headerRateRemaining) = (v, true) →
        (populateRate { Response := r, Rate := {} }).Rate.RequestsRemaining = v)
    ∧ (∀ v : Int, goParseInt (headerGet r.Header headerRateReset) = (v, true) →
        (populateRate { Response := r, Rate := {} }).Rate.Reset =
          (if v = 0 then Option.none else some v))
    ∧ (headerGet r.Header headerRateLimit = "" →
        (populateRate { Response := r, Rate := {} }).Rate.RequestLimit = 0)
    ∧ (headerGet r.Header headerRateRemaining = "" →
        (populateRate { Response := r, Rate := {} }).Rate.RequestsRemaining = 0)
    ∧ (headerGet r.Header headerRateReset = "" →
        (populateRate { Response := r, Rate := {} }).Rate.Reset = Option.none)
    ∧ (parseSigned (headerGet r.Header headerRateLimit) = Option.none →
        (populateRate { Response := r, Rate := {} }).Rate.RequestLimit = 0)
    ∧ (parseSigned (headerGet r.Header headerRateRemaining) = Option.none →
        (populateRate { Response := r, Rate := {} }).Rate.RequestsRemaining = 0)
    ∧ (parseSigned (headerGet r.Header headerRateReset) = Option.none →
        (populateRate { Response := r, Rate := {} }).Rate.Reset = Option.none) := by
  obtain ⟨hL, hR, hS⟩ := populateRate_fields r
  refine ⟨?_, ?_, ?_, ?_, ?_, ?_, ?_, ?_, ?_⟩
  · intro v hv
    have hne : headerGet r.Header headerRateLimit ≠ "" :=
      parseSigned_ne_empty _ v (goParseInt_ok _ v hv)
    rw [hL, if_pos hne, hv]
  · intro v hv
    have hne : headerGet r.Header headerRateRemaining ≠ "" :=
      parseSigned_ne_empty _ v (goParseInt_ok _ v hv)
    rw [hR, if_pos hne, hv]
  · intro v hv
    have hne : headerGet r.Header headerRateReset ≠ "" :=
      parseSigned_ne_empty _ v (goParseInt_ok _ v hv)
    rw [hS]
    by_cases hz : v = 0
    · subst hz
      rw [if_neg (by simp [hv])]
      simp
    · rw [if_pos ⟨hne, by simp [hv, hz]⟩]
      simp [hv, hz]
  · intro hh
    rw [hL, if_neg (by simp [hh])]
  · intro hh
    rw [hR, if_neg (by simp [hh])]
  · intro hh
    rw [hS, if_neg (by simp [hh])]
  · intro hp
    have hz : goParseInt (headerGet r.Header headerRateLimit) = (0, false) := by
      unfold goParseInt
      rw [hp]
    rw [hL]
    split <;> simp [hz]
  · intro hp
    have hz : goParseInt (headerGet r.Header headerRateRemaining) = (0, false) := by
      unfold goParseInt
      rw [hp]
    rw [hR]
    split <;> simp [hz]
  · intro hp
    have hz : goParseInt (headerGet r.Header headerRateReset) = (0, false) := by
      unfold goParseInt
      rw [hp]
    rw [hS, if_neg (by simp [hz])]

/-- C2 witness: on concrete headers limit 100, remaining 99, reset 0,
the snapshot reads 100 and 99 with an unset reset field. -/
theorem populateRate_spec_witness :
    (populateRate { Response := resp200, Rate := {} }).Rate.RequestLimit = 100
    ∧ (populateRate { Response := resp200, Rate := {} }).Rate.RequestsRemaining = 99
    ∧ (populateRate { Response := resp200, Rate := {} }).Rate.Reset = Option.none := by
  have h := populateRate_spec resp200
  refine ⟨h.1 100 (by decide), h.2.1 99 (by decide), ?_⟩
  have h3 := h.2.2.1 0 (by decide)
  simpa using h3

/-- C3: whenever the transport returns a response, `Do` returns a
wrapper whose rate equals the snapshot extracted from that response's
headers, and copies that snapshot onto the client's persisted
`RateLimit`, for every status code and destination — in particular also
when `Do` returns an API error. -/
theorem do_rate_extracted_spec (c : Client) (req : HttpRequest) (v : Dest) (resp : HttpResponse)
    (h : c.client req = Except.ok resp) :
    ∃ w : Response, (c.Do req v).resp = some w
      ∧ w.Rate = (populateRate { Response := resp, Rate := {} }).Rate
      ∧ (c.Do req v).RateLimit = w.Rate := by
  obtain ⟨h1, h2⟩ := do_ok_parts c req v resp h
  exact ⟨_, h1, rfl, h2⟩

/-- C3 witness: a concrete 422 exchange still persists limit 100 and
remaining 99 from the error response's headers. -/
theorem do_rate_extracted_spec_witness :
    ((clientFor resp422).Do reqPlans Dest.none).RateLimit =
      { RequestLimit := 100, RequestsRemaining := 99, Reset := Option.none } := by
  obtain ⟨w, hw, hr, he⟩ := do_rate_extracted_spec (clientFor resp422) reqPlans Dest.none resp422 rfl
  rw [he, hr]
  decide

/-- C4: when the transport itself fails, `Do` returns a nil response
wrapper together with the transport error, and the client's persisted
rate-limit state is unchanged. -/
theorem do_transport_failure_spec (c : Client) (req : HttpRequest) (v : Dest) (e : String)
    (h : c.client req = Except.error e) :
    (c.Do req v).resp = Option.none
    ∧ (c.Do req v).err = some (DoError.transport e)
    ∧ (c.Do req v).RateLimit = c.RateLimit := by
  simp [Client.Do, h]

/-- C4 witness: a concrete connection-refused transport failure. -/
theorem do_transport_failure_spec_witness :
    (clientDown.Do reqPlans Dest.none).resp = Option.none
    ∧ (clientDown.Do reqPlans Dest.none).err = some (DoError.transport "connection refused")
    ∧ (clientDown.Do reqPlans Dest.none).RateLimit = prevRate := by
  exact do_transport_failure_spec clientDown reqPlans Dest.none "connection refused" rfl

/-- C5: on a 2xx response with an `io.Writer` destination, `Do` never
attempts JSON decoding and returns a nil error whatever the body is,
and with a working sink the body is copied to it verbatim. -/
theorem do_writer_spec (c : Client) (req : HttpRequest) (resp : HttpResponse) (failAt : Option Nat)
    (h : c.client req = Except.ok resp)
    (h2 : 200 ≤ resp.StatusCode) (h3 : resp.StatusCode ≤ 299) :
    (c.Do req (Dest.writer failAt)).err = Option.none
    ∧ (c.Do req (Dest.writer failAt)).jsonAttempted = false
    ∧ (c.Do req (Dest.writer Option.none)).written = some resp.Body := by
  have hcr : CheckResponse resp = Option.none := (checkResponse_none_iff resp).mpr ⟨h2, h3⟩
  cases failAt <;> simp [Client.Do, h, hcr]

/-- C5 witness: a concrete 200 response with a non-JSON body is copied
verbatim to the sink and the call succeeds. -/
theorem do_writer_spec_witness :
    ((clientFor resp200).Do reqPlans (Dest.writer Option.none)).err = Option.none
    ∧ ((clientFor resp200).Do reqPlans (Dest.writer Option.none)).written = some "notjson" := by
  have h := do_writer_spec (clientFor resp200) reqPlans resp200 Option.none rfl (by decide) (by decide)
  exact ⟨h.1, h.2.2⟩

/-- C6 (amended): `NewRequest` returns an error and no request when the
relative path is malformed, and propagates a body-serialization failure
as the returned error; every successfully built request has the URL
obtained by standard reference resolution of the path against the base
URL, exactly the five fixed headers in order, the close mark, and the
given method (empty defaulting to GET); and when additionally the
method is a valid HTTP token and the `http.NewRequest` construction on
the resolved URL string succeeds, the request is produced. -/
theorem newRequest_spec (c : Client) (method path : String) (body : Option GoValue) :
    (urlParse path = Option.none → ∃ e, c.NewRequest method path body = Except.error e)
    ∧ (∀ (rel : URL) (emsg : String), urlParse path = some rel → encodeBody body = Except.error emsg →
        c.NewRequest method path body = Except.error emsg)
    ∧ (∀ req : HttpRequest, c.NewRequest method path body = Except.ok req →
        ∃ rel : URL, urlParse path = some rel
          ∧ req.URL = (c.BaseURL.resolveReference rel).render
          ∧ req.Header = [("X-Auth-Token", c.ApiKey), ("X-Consumer-Token", c.ConsumerToken),
              ("Content-Type", mediaType), ("Accept", mediaType), ("User-Agent", userAgent)]
          ∧ req.Close = true
          ∧ req.Method = (if method = "" then "GET" else method))
    ∧ (∀ (rel : URL) (buf : String), urlParse path = some rel → encodeBody body = Except.ok buf →
        validMethod (if method = "" then "GET" else method) = true →
        (urlParse (c.BaseURL.resolveReference rel).render).isSome = true →
        c.NewRequest method path body = Except.ok
          { Method := (if method = "" then "GET" else method),
            URL := (c.BaseURL.resolveReference rel).render,
            Header := [("X-Auth-Token", c.ApiKey), ("X-Consumer-Token", c.ConsumerToken),
              ("Content-Type", mediaType), ("Accept", mediaType), ("User-Agent", userAgent)],
            Body := buf, Close := true }) := by
  refine ⟨?_, ?_, ?_, ?_⟩
  · intro hp
    exact ⟨"net/url: parse error", by simp [Client.NewRequest, hp]⟩
  · intro rel emsg hp he
    simp [Client.NewRequest, hp, he]
  · intro req hok
    cases hp : urlParse path with
    | none => simp [Client.NewRequest, hp] at hok
    | some rel =>
      refine ⟨rel, rfl, ?_⟩
      simp only [Client.NewRequest, hp] at hok
      cases he : encodeBody body with
      | error emsg => rw [he] at hok; exact absurd hok (by simp)
      | ok buf =>
        rw [he] at hok
        simp only [httpNewRequest] at hok
        split at hok
        · exact absurd hok (by simp)
        · rename_i req0 heq
          simp only [Except.ok.injEq] at hok
          subst hok
          repeat' split at heq
          all_goals injection heq
          all_goals rename_i h2
          all_goals subst h2
          all_goals simp_all
  · intro rel buf hp he hv hu
    obtain ⟨s, hs⟩ := Option.isSome_iff_exists.mp hu
    by_cases hm : method = "" <;> simp_all [Client.NewRequest, httpNewRequest]

/-- C6 counterexample: with the well-formed path "plans" and a nil body
(whose serialization trivially succeeds), a method containing a space
still makes `NewRequest` return an error and no request. -/
theorem newRequest_invalid_method_cex :
    (clientFor resp200).NewRequest "B D" "plans" Option.none
        = Except.error "net/http: invalid method B D"
    ∧ (urlParse "plans").isSome = true
    ∧ encodeBody Option.none = Except.ok "" := by
  exact ⟨by rfl, by decide, by rfl⟩

/-- C6 witness: a concrete POST with a serializable body produces the
request with the resolved URL and exactly the five fixed headers. -/
theorem newRequest_spec_witness :
    (clientFor resp200).NewRequest "POST" "devices" (some (GoValue.jsonOk "42")) =
      Except.ok { Method := "POST", URL := "https://api.packet.net/devices",
                  Header := [("X-Auth-Token", "key"), ("X-Consumer-Token", "ct"),
                             ("Content-Type", "application/json"), ("Accept", "application/json"),
                             ("User-Agent", "packngo/0.1.0")],
                  Body := "42\n", Close := true } := by
  have h := (newRequest_spec (clientFor resp200) "POST" "devices" (some (GoValue.jsonOk "42"))).2.2.2
    { Scheme := "", Host := "", Path := "devices", RawQuery := "" } "42\n"
    (by rfl) (by rfl) (by decide) (by decide)
  exact h

/-- C7: the textual form of an `ErrorResponse` is the request method,
the request URL, the numeric status code, and the message, in that
fixed order, whatever the message is. -/
theorem errorResponse_format_spec (er : ErrorResponse) :
    er.error = er.Response.Request.Method ++ " " ++ er.Response.Request.URL ++ ": "
      ++ toString er.Response.StatusCode ++ " " ++ er.Message := by
  apply String.ext
  simp only [ErrorResponse.error]
  simp [gofmt, FmtArg.render, String.data_append]

/-- C8 (amended): on a 2xx response with no destination, `Do` leaves
the body stream unread (it is only closed, not drained) and discards it
without inspection, returning a nil error, nothing written, and no
decode attempt. -/
theorem do_nil_dest_spec (c : Client) (req : HttpRequest) (resp : HttpResponse)
    (h : c.client req = Except.ok resp)
    (h2 : 200 ≤ resp.StatusCode) (h3 : resp.StatusCode ≤ 299) :
    (c.Do req Dest.none).err = Option.none
    ∧ (c.Do req Dest.none).written = Option.none
    ∧ (c.Do req Dest.none).jsonAttempted = false
    ∧ (c.Do req Dest.none).bodyUse = BodyUse.untouched := by
  have hcr : CheckResponse resp = Option.none := (checkResponse_none_iff resp).mpr ⟨h2, h3⟩
  simp [Client.Do, h, hcr]

/-- C8 counterexample: a concrete 204 exchange with a nonempty body and
no destination leaves the body unread — it is not drained (read to
EOF) as claimed. -/
theorem do_nil_dest_unread_cex :
    ((clientFor respBare).Do reqPlans Dest.none).bodyUse = BodyUse.untouched
    ∧ ((clientFor respBare).Do reqPlans Dest.none).bodyUse ≠ BodyUse.fullyRead
    ∧ respBare.Body ≠ "" := by
  exact ⟨by decide, by decide, by decide⟩

/-- C8 witness: the concrete 204 exchange with no destination succeeds
with the body untouched. -/
theorem do_nil_dest_spec_witness :
    ((clientFor respBare).Do reqPlans Dest.none).err = Option.none
    ∧ ((clientFor respBare).Do reqPlans Dest.none).bodyUse = BodyUse.untouched := by
  have h := do_nil_dest_spec (clientFor respBare) reqPlans respBare rfl (by decide) (by decide)
  exact ⟨h.1, h.2.2.2⟩

/-- C9: on a 2xx response with an `io.Writer` destination whose copy
fails after `n` bytes, `Do` still returns a nil error, the copy failure
being silently discarded. -/
theorem do_writer_copy_failure_spec (c : Client) (req : HttpRequest) (resp : HttpResponse) (n : Nat)
    (h : c.client req = Except.ok resp)
    (h2 : 200 ≤ resp.StatusCode) (h3 : resp.StatusCode ≤ 299) :
    (c.Do req (Dest.writer (some n))).err = Option.none
    ∧ (c.Do req (Dest.writer (some n))).written = some (resp.Body.take n) := by
  have hcr : CheckResponse resp = Option.none := (checkResponse_none_iff resp).mpr ⟨h2, h3⟩
  simp [Client.Do, h, hcr]

/-- C9 witness: a concrete sink failing after one byte of a three-byte
body still yields a nil error. -/
theorem do_writer_copy_failure_spec_witness :
    ((clientFor respBare).Do reqPlans (Dest.writer (some 1))).err = Option.none
    ∧ ((clientFor respBare).Do reqPlans (Dest.writer (some 1))).written = some "a" := by
  have h := do_writer_copy_failure_spec (clientFor respBare) reqPlans respBare 1 rfl
    (by decide) (by decide)
  exact ⟨h.1, h.2⟩

/-- C10: whenever the transport returns a response, the client's
persisted `RateLimit` is replaced wholesale by the snapshot parsed from
that response alone, so any header absent from the response resets the
corresponding persisted field to its zero default regardless of the
previous value. -/
theorem do_rate_replace_spec (c : Client) (req : HttpRequest) (v : Dest) (resp : HttpResponse)
    (h : c.client req = Except.ok resp) :
    (c.Do req v).RateLimit = (populateRate { Response := resp, Rate := {} }).Rate
    ∧ (headerGet resp.Header headerRateLimit = "" → (c.Do req v).RateLimit.RequestLimit = 0)
    ∧ (headerGet resp.Header headerRateRemaining = "" → (c.Do req v).RateLimit.RequestsRemaining = 0)
    ∧ (headerGet resp.Header headerRateReset = "" → (c.Do req v).RateLimit.Reset = Option.none) := by
  have hmain := (do_ok_parts c req v resp h).2
  refine ⟨hmain, ?_, ?_, ?_⟩
  · intro hh
    rw [hmain, (populateRate_fields resp).1, if_neg (by simp [hh])]
  · intro hh
    rw [hmain, (populateRate_fields resp).2.1, if_neg (by simp [hh])]
  · intro hh
    rw [hmain, (populateRate_fields resp).2.2, if_neg (by simp [hh])]

/-- C10 witness: a response with no rate headers resets the persisted
snapshot to all zero defaults even though the previous snapshot was
nonzero. -/
theorem do_rate_replace_spec_witness :
    ((clientFor respBare).Do reqPlans Dest.none).RateLimit = ({} : Rate)
    ∧ prevRate ≠ ({} : Rate) := by
  have h := do_rate_replace_spec (clientFor respBare) reqPlans Dest.none respBare rfl
  refine ⟨?_, by decide⟩
  rw [h.1]
  decide

end Packngo
